import Mathlib

/-!
Verification of the skiaicoach core against its specification.

The frame-extraction pipeline (src/video_processor.py, extract_frames_for_display),
the coach adapters (GeminiCoach.analyze, OpenAICoach.analyze, get_coach,
process_video) and the job pipeline (src/app.py, background_processing together
with save_job / load_job) are shallowly embedded below.  External effects
(imageio decoding, the ffmpeg subprocess, blob storage, provider HTTP calls,
the file system) are modelled by explicit environment records whose fields say
what each effectful call would have returned or raised; the Python control flow
around those calls is translated directly.  Python float arithmetic in the
sampling formulas is modelled exactly over the rationals (truncation of a
nonnegative value toward zero is Nat floor division).
-/

/-! ## Frame sampling (src/video_processor.py, extract_frames_for_display) -/

/-- Environment for strategy 1 (imageio): which optional import is present,
what `iio.improps(video_path).shape[0]` returns (`none` = the call raised;
negative or huge values were seen in logs, hence `Int`), which per-index
`iio.imread`/`iio.imwrite` pairs succeed on the known-count path (`kcOk`, a
failure is caught and that index skipped), how many frames the `iio.imiter`
iterator yields before it stops (`streamLen`), whether it stops by raising
instead of ending normally (`streamRaises`), and which `iio.imwrite` calls
succeed on the iterator path (`iterWriteOk`, a failure there escapes the
loop because that write is not inside a local handler). -/
structure ImageioEnv where
  hasImageio : Bool
  improps : Option Int
  kcOk : Nat → Bool
  streamLen : Nat
  streamRaises : Bool
  iterWriteOk : Nat → Bool

/-- Result of strategy 1: the library is absent, the block completed and
returned these source-frame indices, or an exception escaped the block after
these source-frame indices had been extracted. -/
inductive S1Result where
  | unavailable : S1Result
  | done : List Nat → S1Result
  | threw : List Nat → S1Result
deriving DecidableEq

/-- The frames a strategy-1 outcome has extracted. -/
def resultFrames : S1Result → List Nat
  | S1Result.unavailable => []
  | S1Result.done fs => fs
  | S1Result.threw fs => fs

/-- The validity check on the probed count:
`total_frames > 0 and total_frames < 1000000`. -/
def saneCount (t : Int) : Bool :=
  decide (0 < t) && decide (t < 1000000)

/-- `np.linspace(0, total_frames - 1, num_frames, dtype=int)`: the i-th point
is i*(total-1)/(num-1), truncated toward zero, i.e. Nat floor division
(for `num = 1` numpy returns `[0]`, which Nat division by zero also gives). -/
def linspaceIdx (total num : Nat) : List Nat :=
  (List.range num).map (fun i => i * (total - 1) / (num - 1))

/-- The iterator path of strategy 1: `for i, frame in enumerate(iio.imiter(...))`,
capturing every 30th frame, breaking once `num` frames are captured.  `rem` is
how many more frames the iterator will yield, `i` the current source index,
`acc` the captured source indices. -/
def iterGo (env : ImageioEnv) (num : Nat) : Nat → Nat → List Nat → S1Result
  | 0, _, acc => if env.streamRaises then S1Result.threw acc else S1Result.done acc
  | rem + 1, i, acc =>
    if i % 30 == 0 then
      if env.iterWriteOk i then
        if num ≤ acc.length + 1 then S1Result.done (acc ++ [i])
        else iterGo env num rem (i + 1) (acc ++ [i])
      else S1Result.threw acc
    else iterGo env num rem (i + 1) acc

/-- Strategy 1 as a whole: skipped when imageio is absent; the known-count
path (filtering out the indices whose read or write failed) when the probed
count is sane; the iterator path otherwise (also when `improps` raised). -/
def strategyOne (env : ImageioEnv) (num : Nat) : S1Result :=
  if env.hasImageio = false then S1Result.unavailable
  else
    match env.improps with
    | some t =>
      if saneCount t then S1Result.done ((linspaceIdx t.toNat num).filter env.kcOk)
      else iterGo env num env.streamLen 0 []
    | none => iterGo env num env.streamLen 0 []

/-- Environment for strategy 2 (the ffmpeg subprocess): whether the
subprocess and the directory listing succeed, and how many matching
`frame_*.jpg` files the sorted listing contains. -/
structure FfmpegEnv where
  ffmpegOk : Bool
  producedCount : Nat

/-- The downsampling step of strategy 2, on positions into the sorted file
list: `step = len(files) / num_frames; indices = [int(i * step) for i in
range(num_frames)]` when more files were produced than requested, the whole
list otherwise. -/
def strategyTwoPositions (produced num : Nat) : List Nat :=
  if num < produced then (List.range num).map (fun i => i * produced / num)
  else List.range produced

/-- The same downsampling on the file list itself:
`extracted_paths = [files[i] for i in indices]`. -/
def downsampleFiles (files : List String) (num : Nat) : List String :=
  if num < files.length then
    (List.range num).map (fun i => files.getD (i * files.length / num) "")
  else files

/-- Python string comparison (code-point lexicographic), as used by
`sorted()` on the listing. -/
def lexLe : List Char → List Char → Bool
  | [], _ => true
  | _ :: _, [] => false
  | a :: as, b :: bs => if a = b then lexLe as bs else decide (a < b)

/-- The three digits `%03d` prints for an argument up to 999. -/
def pad3 (j : Nat) : List Char :=
  [Nat.digitChar (j / 100), Nat.digitChar (j / 10 % 10), Nat.digitChar (j % 10)]

/-- The name of the j-th (1-based) ffmpeg output file, `frame_%03d.jpg`
(beyond 999 the format prints every digit). -/
def ffmpegName (j : Nat) : List Char :=
  "frame_".data ++ ((if j < 1000 then pad3 j else Nat.toDigits 10 j) ++ ".jpg".data)

/-- The name strategy 1 gives its k-th written frame,
`frame_{frames_captured}_{int(time.time())}.jpg`. -/
def residueName (k ts : Nat) : List Char :=
  "frame_".data ++ (Nat.toDigits 10 k ++ ("_".data ++ (Nat.toDigits 10 ts ++ ".jpg".data)))

/-- One file of the fallback's directory listing: its name and the source
position it shows, in frame units under the 30-frames-per-second assumption
the iterator path itself makes (the j-th 1-fps ffmpeg output covers second
j-1, i.e. source position 30·(j-1)). -/
structure ListedFile where
  name : List Char
  src : Nat
deriving DecidableEq

/-- The files ffmpeg wrote: `frame_001.jpg` at source position 0 through
`frame_{produced:03d}.jpg` at source position 30·(produced-1). -/
def ffmpegFiles (produced : Nat) : List ListedFile :=
  (List.range produced).map (fun j => ⟨ffmpegName (j + 1), 30 * j⟩)

/-- The residual files of a partial strategy-1 run, one per frame it wrote
before control fell through, numbered from 0; `fs` are their source
positions and `ts` the timestamp in the name.  (A frame whose write itself
raised is assumed to leave no file; the ordering theorem below therefore
scopes its fallback conjunct to runs where strategy 1 wrote nothing.) -/
def residueFilesGo (ts : Nat) : Nat → List Nat → List ListedFile
  | _, [] => []
  | k, src :: rest => ⟨residueName k ts, src⟩ :: residueFilesGo ts (k + 1) rest

/-- The residual strategy-1 files, numbered from 0. -/
def residueFiles (ts : Nat) (fs : List Nat) : List ListedFile := residueFilesGo ts 0 fs

/-- Insertion step of the name sort (stable, like Python `sorted`). -/
def insertByName (x : ListedFile) : List ListedFile → List ListedFile
  | [] => [x]
  | y :: ys => if lexLe y.name x.name then y :: insertByName x ys else x :: y :: ys

/-- `sorted(...)` on the listing, by name. -/
def sortByName : List ListedFile → List ListedFile
  | [] => []
  | x :: xs => insertByName x (sortByName xs)

/-- `files = sorted([f for f in os.listdir(output_folder) if ...])`: the
ffmpeg outputs together with whatever strategy 1 left in the same folder
(its names also start with `frame_` and end with `.jpg`), sorted by name. -/
def fallbackListing (residue : List ListedFile) (produced : Nat) : List ListedFile :=
  sortByName (ffmpegFiles produced ++ residue)

/-- The downsampling step of strategy 2 on the listing (same formula as
`downsampleFiles`, kept on `ListedFile` so source positions stay attached). -/
def downsampleListing (files : List ListedFile) (num : Nat) : List ListedFile :=
  if num < files.length then
    (List.range num).map (fun i => files.getD (i * files.length / num) ⟨[], 0⟩)
  else files

/-- What strategy 2 returns: the (possibly downsampled) sorted listing, or
`[]` when the subprocess raised (the surrounding handler returns `[]`). -/
def fallbackSelected (residue : List ListedFile) (ff : FfmpegEnv) (num : Nat) : List ListedFile :=
  if ff.ffmpegOk then downsampleListing (fallbackListing residue ff.producedCount) num
  else []

/-- `extract_frames_for_display`, returning the source positions of the
frames it hands back: strategy 1's own frames when it completed with at
least one; otherwise the strategy-2 selection over the sorted listing, which
after a partial primary run still contains strategy 1's residue. -/
def extractFramesSrc (env : ImageioEnv) (ff : FfmpegEnv) (num ts : Nat) : List Nat :=
  match strategyOne env num with
  | S1Result.done fs =>
    if fs.isEmpty then (fallbackSelected (residueFiles ts []) ff num).map ListedFile.src
    else fs
  | S1Result.unavailable => (fallbackSelected (residueFiles ts []) ff num).map ListedFile.src
  | S1Result.threw fs => (fallbackSelected (residueFiles ts fs) ff num).map ListedFile.src

/-- Whether control reaches the strategy-2 (ffmpeg) block. -/
def fallbackInvoked (env : ImageioEnv) (num : Nat) : Bool :=
  match strategyOne env num with
  | S1Result.unavailable => true
  | S1Result.done fs => fs.isEmpty
  | S1Result.threw _ => true

/-- How many frames strategy 1 had extracted before control passed on. -/
def primaryProduced (env : ImageioEnv) (num : Nat) : Nat :=
  (resultFrames (strategyOne env num)).length

/-- Modelled from the spec: the spec describes the primary sampling formula
as index i = round(i·(totalFrames−1)/(targetCount−1)); round(a/b) is written
as floor((2a+b)/(2b)).  The code (`linspaceIdx`) is compared against this. -/
def specRoundedIdx (total num : Nat) : List Nat :=
  (List.range num).map (fun i => (2 * (i * (total - 1)) + (num - 1)) / (2 * (num - 1)))

/-- A video with a sane known total of 5 frames, every decode succeeding. -/
def envKnown5 : ImageioEnv := ⟨true, some 5, fun _ => true, 0, false, fun _ => true⟩

/-- No usable ffmpeg binary: the subprocess call raises. -/
def ffAbsent : FfmpegEnv := ⟨false, 0⟩

/-- A video with a sane known total of 11 frames, every decode succeeding. -/
def envKnown11 : ImageioEnv := ⟨true, some 11, fun _ => true, 0, false, fun _ => true⟩

/-- A video with a sane known total of 100 frames, every decode succeeding. -/
def envKnown100 : ImageioEnv := ⟨true, some 100, fun _ => true, 0, false, fun _ => true⟩

/-- A sorted listing of 97 produced frame files. -/
def files97 : List String := List.replicate 97 "frame.jpg"

/-- Unknown total (improps raised); the iterator yields one frame, which is
captured and written successfully, and then raises mid-stream. -/
def envIterRaise : ImageioEnv := ⟨true, none, fun _ => true, 1, true, fun _ => true⟩

/-- Imageio absent entirely: strategy 1 never runs, nothing of it on disk. -/
def envNoImageio : ImageioEnv := ⟨false, none, fun _ => true, 0, false, fun _ => true⟩

/-- An ffmpeg run that produced five frame files. -/
def ffFive : FfmpegEnv := ⟨true, 5⟩

/-! ## Coach adapters (src/video_processor.py) -/

/-- A critique document that parsed as structured data. -/
structure Critique where
  score : Int
  observations : List String
  advice : String
deriving DecidableEq

/-- A value returned (not raised) by an `analyze` call: either a parsed
critique or one of the typed error dictionaries the adapters build. -/
inductive AnalysisValue where
  | doc : Critique → AnalysisValue
  | errDict : String → Option String → AnalysisValue
deriving DecidableEq

def msgNoOpenai : String := "OpenAI library not installed."

def msgNoFrames : String := "No frames extracted. Check if FFMPEG is installed or downloaded."

def msgMissingKeys : String := "Missing OpenAI/Azure API Keys."

def msgNoGemini : String := "Google GenAI library not installed."

def msgRemoteFailed : String := "Video processing failed."

def msgParseFail : String := "Failed to parse analysis result"

/-- Environment for `OpenAICoach.analyze`: the optional import, the three
credential env vars read in `__init__` (an unset or empty variable is
`none`), whether the image-encoding/HTTP request raises, the raw response
body, and what `json.loads` makes of it (`none` = parse failure). -/
structure OpenAIEnv where
  hasOpenai : Bool
  azureEndpoint : Option String
  azureApiKey : Option String
  openaiApiKey : Option String
  requestRaises : Option String
  responseBody : String
  parsedDoc : Option Critique
deriving DecidableEq

/-- `OpenAICoach.analyze`.  Note every typed error is a returned dictionary,
not an exception; only the request itself can raise. -/
def openAIAnalyze (env : OpenAIEnv) (displayFrames : List Nat) : Except String AnalysisValue :=
  if env.hasOpenai = false then Except.ok (AnalysisValue.errDict msgNoOpenai none)
  else if displayFrames.isEmpty then Except.ok (AnalysisValue.errDict msgNoFrames none)
  else if (env.azureEndpoint.isSome && env.azureApiKey.isSome) || env.openaiApiKey.isSome then
    match env.requestRaises with
    | some e => Except.error e
    | none =>
      match env.parsedDoc with
      | some d => Except.ok (AnalysisValue.doc d)
      | none => Except.ok (AnalysisValue.errDict msgParseFail (some env.responseBody))
  else Except.ok (AnalysisValue.errDict msgMissingKeys none)

/-- Environment for `GeminiCoach.analyze`: the optional import, whether
`genai.upload_file` raises (this is how a missing GEMINI_API_KEY manifests,
since `genai.configure` was never called), whether the remote file state
polls to FAILED, whether `generate_content` raises, the raw response text,
and what `json.loads` makes of it. -/
structure GeminiEnv where
  hasGemini : Bool
  uploadRaises : Option String
  remoteFailed : Bool
  requestRaises : Option String
  responseBody : String
  parsedDoc : Option Critique
deriving DecidableEq

/-- `GeminiCoach.analyze`.  The upload, the FAILED remote state (raised as
`ValueError`) and the request propagate exceptions; a parse failure is
returned as a typed error dictionary carrying the raw response text. -/
def geminiAnalyze (env : GeminiEnv) : Except String AnalysisValue :=
  if env.hasGemini = false then Except.ok (AnalysisValue.errDict msgNoGemini none)
  else
    match env.uploadRaises with
    | some e => Except.error e
    | none =>
      if env.remoteFailed then Except.error msgRemoteFailed
      else
        match env.requestRaises with
        | some e => Except.error e
        | none =>
          match env.parsedDoc with
          | some d => Except.ok (AnalysisValue.doc d)
          | none => Except.ok (AnalysisValue.errDict msgParseFail (some env.responseBody))

def gptChars : List Char := ['g', 'p', 't']

/-- Whether the pattern occurs at the head of the character list. -/
def matchesAt : List Char → List Char → Bool
  | [], _ => true
  | _ :: _, [] => false
  | p :: ps, c :: cs => (p == c) && matchesAt ps cs

/-- Whether `gpt` occurs anywhere in the character list. -/
def hasGptSub : List Char → Bool
  | [] => false
  | c :: t => matchesAt gptChars (c :: t) || hasGptSub t

/-- Python `str.lower()` on one character (ASCII model names only). -/
def lowerChar (c : Char) : Char :=
  if 'A' ≤ c && c ≤ 'Z' then Char.ofNat (c.toNat + 32) else c

/-- Python `str.lower()` as a character list. -/
def lowerData (s : String) : List Char := s.data.map lowerChar

/-- The dispatch test of `get_coach`: `"gpt" in model_name.lower()`. -/
def lowerContainsGpt (s : String) : Bool := hasGptSub (lowerData s)

/-- The two adapter variants. -/
inductive CoachKind where
  | openai : CoachKind
  | gemini : CoachKind
deriving DecidableEq

/-- `get_coach`: substring dispatch, defaulting to Gemini. -/
def getCoach (modelName : String) : CoachKind :=
  if lowerContainsGpt modelName then CoachKind.openai else CoachKind.gemini

/-- `process_video` from frame extraction onward: dispatch on the model
name, run the chosen adapter, and (since every returned value in this model
is a dict) attach the display frames to a returned value.  Exceptions from
`analyze` propagate. -/
def processVideo (modelName : String) (frames : List Nat) (genv : GeminiEnv)
    (oenv : OpenAIEnv) : Except String (AnalysisValue × List Nat) :=
  match getCoach modelName with
  | CoachKind.openai => (openAIAnalyze oenv frames).map (fun v => (v, frames))
  | CoachKind.gemini => (geminiAnalyze genv).map (fun v => (v, frames))

/-! ## Job records and the pipeline run (src/app.py, background_processing) -/

/-- A stored job record: `status`, optional `data` (analysis value plus
display frames) and optional `error`, as written by `save_job`. -/
structure JobRecord where
  status : String
  data : Option (AnalysisValue × List Nat)
  error : Option String
deriving DecidableEq

/-- The record written at submission time: `{"status": "processing"}`. -/
def procRec : JobRecord := ⟨"processing", none, none⟩

/-- `job_data.update({"status": "completed", "data": ...})`: merge semantics,
other fields are preserved. -/
def markCompleted (r : JobRecord) (v : AnalysisValue × List Nat) : JobRecord :=
  { r with status := "completed", data := some v }

/-- `job_data.update({"status": "failed", "error": ...})`: merge semantics,
other fields (including any previously written `data`) are preserved. -/
def markFailed (r : JobRecord) (e : String) : JobRecord :=
  { r with status := "failed", error := some e }

/-- Environment of one `background_processing` run: storage mode, whether the
blob fetch raises (modelled at the blob-client stage, before the temp file is
created), the requested model name, the frames `extract_frames_for_display`
returned, the two adapter environments, and whether the post-success
`os.remove` cleanup raises (with the exception's message). -/
structure PipelineEnv where
  isAzure : Bool
  downloadRaises : Option String
  modelName : String
  frames : List Nat
  genv : GeminiEnv
  oenv : OpenAIEnv
  cleanupRaises : Bool
  cleanupMsg : String

/-- The writes `background_processing` makes to the job store after the video
is local, appended to the submission-time record.  On success the completed
record is saved, then — because the cleanup runs inside the same `try` —
a raising `os.remove` sends control to the `except` branch, which loads the
completed record back and overwrites it as failed. -/
def runAfterFetch (p : PipelineEnv) : List JobRecord :=
  match processVideo p.modelName p.frames p.genv p.oenv with
  | Except.error e => [procRec, markFailed procRec e]
  | Except.ok v =>
    if p.isAzure && p.cleanupRaises then
      [procRec, markCompleted procRec v, markFailed (markCompleted procRec v) p.cleanupMsg]
    else [procRec, markCompleted procRec v]

/-- The successive states the stored record of one job goes through: the
submission-time write followed by the worker's writes. -/
def runTrace (p : PipelineEnv) : List JobRecord :=
  if p.isAzure then
    match p.downloadRaises with
    | some e => [procRec, markFailed procRec e]
    | none => runAfterFetch p
  else runAfterFetch p

/-- Whether a Python call returned (true) or raised (false). -/
def exceptOk {e a : Type} : Except e a → Bool
  | Except.ok _ => true
  | Except.error _ => false

/-- Whether the locally-fetched temporary copy of a remote source still
exists when the run ends: the cleanup runs only on the success path, so a
failing run (or a failing `os.remove`) leaves the file behind. -/
def tempFileRemains (p : PipelineEnv) : Bool :=
  p.isAzure && p.downloadRaises.isNone &&
    (match processVideo p.modelName p.frames p.genv p.oenv with
     | Except.error _ => true
     | Except.ok _ => p.cleanupRaises)

/-- The status of the last stored record of the run. -/
def lastStatus (p : PipelineEnv) : Option String :=
  ((runTrace p).getLast?).map JobRecord.status

/-- One legal step of the claimed status lifecycle: the record is unchanged,
or it moves from `processing` to a terminal status. -/
def stepOk (a b : JobRecord) : Prop :=
  a = b ∨ (a.status = "processing" ∧ (b.status = "completed" ∨ b.status = "failed"))

instance : DecidableRel stepOk := fun a b =>
  inferInstanceAs (Decidable
    (a = b ∨ (a.status = "processing" ∧ (b.status = "completed" ∨ b.status = "failed"))))

instance instDecEqExcept {e a : Type} [DecidableEq e] [DecidableEq a] :
    DecidableEq (Except e a) := fun x y =>
  match x, y with
  | Except.ok u, Except.ok v =>
    match decEq u v with
    | isTrue h => isTrue (congrArg Except.ok h)
    | isFalse h => isFalse (fun hh => h (Except.ok.inj hh))
  | Except.error u, Except.error v =>
    match decEq u v with
    | isTrue h => isTrue (congrArg Except.error h)
    | isFalse h => isFalse (fun hh => h (Except.error.inj hh))
  | Except.ok _, Except.error _ => isFalse (fun hh => Except.noConfusion hh)
  | Except.error _, Except.ok _ => isFalse (fun hh => Except.noConfusion hh)

/-! ## Job file contents (src/app.py, save_job / load_job) -/

/-- The job file's content after `save_job`: `open(filepath, "w")` truncates
whatever was there, then `json.dump` writes the serialization sequentially;
an exception after `k` characters (caught and only logged by `save_job`)
leaves the prefix of length `k`.  The previous content plays no part. -/
def saveJobContent (_prev serialized : String) (failAfter : Option Nat) : String :=
  match failAfter with
  | none => serialized
  | some k => serialized.take k

/-- Whether `json.load` accepts the file.  The documents `save_job` writes
are JSON objects, so a necessary condition — the one this model checks — is
an opening brace at the start and a closing brace at the end; every proper
prefix of such a single-object document fails it. -/
def parsesAsRecord (s : String) : Bool :=
  (2 ≤ s.length) && (s.front == '\x7b') && (s.back == '\x7d')

/-- `load_job`: the parsed content, or `None` when parsing fails (the
exception is caught and logged). -/
def loadJobContent (s : String) : Option String :=
  if parsesAsRecord s then some s else none

/-- A serialized `processing` record. -/
def processingDoc : String := "\x7b\x22status\x22: \x22processing\x22\x7d"

/-- A serialized terminal record that a later write would store. -/
def completedDoc : String := "\x7b\x22status\x22: \x22completed\x22, \x22data\x22: \x22ok\x22\x7d"

/-! ## Concrete pipeline environments used by the claim theorems -/

/-- A critique that parsed successfully. -/
def critOk : Critique := ⟨7, ["solid turn shape"], "keep hands forward"⟩

/-- OpenAI adapter with a standard key and a parsing response. -/
def oenvGood : OpenAIEnv := ⟨true, none, none, some "sk-key", none, "", some critOk⟩

/-- Gemini adapter environment for runs that never reach it. -/
def genvIdle : GeminiEnv := ⟨true, none, false, none, "", none⟩

/-- An Azure-stored job whose analysis succeeds but whose temp-file cleanup
raises after the completed record was saved. -/
def envCleanupFails : PipelineEnv :=
  ⟨true, none, "gpt-4o", [0], genvIdle, oenvGood, true, "PermissionError: temp file locked"⟩

/-- A locally-stored job whose analysis succeeds and nothing raises. -/
def envCleanRun : PipelineEnv :=
  ⟨false, none, "gpt-4o", [0, 30], genvIdle, oenvGood, false, ""⟩

/-- OpenAI adapter with the library installed but every credential absent. -/
def oenvNoKeys : OpenAIEnv := ⟨true, none, none, none, none, "", none⟩

/-- A local job on the frame-batch variant with credentials withheld. -/
def envMissingKeys : PipelineEnv :=
  ⟨false, none, "gpt-4o", [0], genvIdle, oenvNoKeys, false, ""⟩

/-- Gemini adapter whose first remote call raises for want of an API key. -/
def genvNoKey : GeminiEnv :=
  ⟨true, some "GEMINI_API_KEY not configured", false, none, "", none⟩

/-- A local job on the whole-video variant with credentials withheld. -/
def envGeminiNoKey : PipelineEnv :=
  ⟨false, none, "gemini-pro", [], genvNoKey, oenvNoKeys, false, ""⟩

/-- Gemini adapter whose response body does not parse as JSON. -/
def genvParseFail : GeminiEnv :=
  ⟨true, none, false, none, "I cannot analyze this video", none⟩

/-- A local job on the whole-video variant hitting the parse failure. -/
def envGeminiParseFail : PipelineEnv :=
  ⟨false, none, "gemini-3-flash-preview", [0, 30], genvParseFail, oenvNoKeys, false, ""⟩

/-- OpenAI adapter whose response body does not parse as JSON. -/
def oenvParseFail : OpenAIEnv := ⟨true, none, none, some "sk-key", none, "not json", none⟩

/-- A local job on the frame-batch variant hitting the parse failure. -/
def envOpenaiParseFail : PipelineEnv :=
  ⟨false, none, "gpt-4o", [0], genvIdle, oenvParseFail, false, ""⟩

/-- An Azure-stored job whose blob fetch succeeds and whose analysis raises. -/
def envAzureFailedRun : PipelineEnv :=
  ⟨true, none, "gemini-3-flash-preview", [], genvNoKey, oenvNoKeys, false, ""⟩

/-- An Azure-stored job where everything, the cleanup included, succeeds. -/
def envAzureCleanRun : PipelineEnv :=
  ⟨true, none, "gpt-4o", [0], genvIdle, oenvGood, false, ""⟩

/-! ## Helper lemmas -/

theorem mulDiv_le_mono {n p i j : Nat} (h : i ≤ j) : i * p / n ≤ j * p / n :=
  Nat.div_le_div_right (Nat.mul_le_mul_right p h)

theorem mulDiv_lt_strict {n p i j : Nat} (hn : 0 < n) (hnp : n ≤ p) (hij : i < j) :
    i * p / n < j * p / n := by
  have ha : (i + 1) * p ≤ j * p := Nat.mul_le_mul_right p hij
  have hb : i * p + n ≤ j * p := by
    have hc : i * p + n ≤ i * p + p := Nat.add_le_add_left hnp _
    have hd : i * p + p = (i + 1) * p := by ring
    omega
  have h2 : (i * p + n) / n = i * p / n + 1 := Nat.add_div_right _ hn
  have h3 : (i * p + n) / n ≤ j * p / n := Nat.div_le_div_right hb
  omega

theorem linspaceIdx_length (t num : Nat) : (linspaceIdx t num).length = num := by
  simp [linspaceIdx]

theorem linspaceIdx_pairwise_le (t num : Nat) :
    List.Pairwise (· ≤ ·) (linspaceIdx t num) := by
  unfold linspaceIdx
  rw [List.pairwise_map]
  exact (List.pairwise_lt_range num).imp (fun h => mulDiv_le_mono h.le)

theorem strategyTwoPositions_length_le (p num : Nat) :
    (strategyTwoPositions p num).length ≤ num := by
  unfold strategyTwoPositions
  split
  · simp
  · rename_i h
    simp only [List.length_range]
    omega

theorem strategyTwoPositions_pairwise_lt (p num : Nat) :
    List.Pairwise (· < ·) (strategyTwoPositions p num) := by
  unfold strategyTwoPositions
  split
  · rename_i h
    rw [List.pairwise_map]
    rcases Nat.eq_zero_or_pos num with h0 | h0
    · subst h0
      simp
    · exact (List.pairwise_lt_range num).imp (fun hij => mulDiv_lt_strict h0 h.le hij)
  · exact List.pairwise_lt_range p

theorem iterGo_spec (env : ImageioEnv) (num : Nat) :
    ∀ (rem i : Nat) (acc : List Nat), acc.length < num → List.Pairwise (· < ·) acc →
      (∀ x ∈ acc, x < i) →
      (resultFrames (iterGo env num rem i acc)).length ≤ num ∧
        List.Pairwise (· < ·) (resultFrames (iterGo env num rem i acc)) := by
  intro rem
  induction rem with
  | zero =>
    intro i acc hlen hpw _
    unfold iterGo
    split <;> exact ⟨hlen.le, hpw⟩
  | succ rem ih =>
    intro i acc hlen hpw hbound
    have hpw2 : List.Pairwise (· < ·) (acc ++ [i]) := by
      rw [List.pairwise_append]
      refine ⟨hpw, List.pairwise_singleton _ _, ?_⟩
      intro a ha b hb
      simp only [List.mem_singleton] at hb
      rw [hb]
      exact hbound a ha
    have hbound2 : ∀ x ∈ acc ++ [i], x < i + 1 := by
      intro x hx
      rcases List.mem_append.mp hx with h | h
      · exact Nat.lt_trans (hbound x h) (Nat.lt_succ_self i)
      · simp only [List.mem_singleton] at h
        rw [h]
        exact Nat.lt_succ_self i
    unfold iterGo
    split
    · split
      · split
        · rename_i hcap
          refine ⟨?_, hpw2⟩
          simp only [resultFrames, List.length_append, List.length_singleton]
          omega
        · rename_i hcap
          exact ih (i + 1) (acc ++ [i]) (by simp; omega) hpw2 hbound2
      · exact ⟨hlen.le, hpw⟩
    · exact ih (i + 1) acc hlen hpw (fun x hx => Nat.lt_trans (hbound x hx) (Nat.lt_succ_self i))

theorem strategyOne_spec (env : ImageioEnv) (num : Nat) (h1 : 1 ≤ num) :
    (resultFrames (strategyOne env num)).length ≤ num ∧
      List.Pairwise (· ≤ ·) (resultFrames (strategyOne env num)) := by
  have hiter := iterGo_spec env num env.streamLen 0 [] (by simpa using h1) (by simp) (by simp)
  unfold strategyOne
  split
  · exact ⟨by simp [resultFrames], by simp [resultFrames]⟩
  · split
    · split
      · constructor
        · simp only [resultFrames]
          calc ((linspaceIdx _ num).filter env.kcOk).length
              ≤ (linspaceIdx _ num).length := List.length_filter_le _ _
            _ = num := linspaceIdx_length _ num
        · simp only [resultFrames]
          exact (linspaceIdx_pairwise_le _ num).sublist (List.filter_sublist _)
      · exact ⟨hiter.1, hiter.2.imp le_of_lt⟩
    · exact ⟨hiter.1, hiter.2.imp le_of_lt⟩

theorem runAfterFetch_chain (p : PipelineEnv) (h : p.cleanupRaises = false) :
    (runAfterFetch p).head? = some procRec ∧ List.Chain' stepOk (runAfterFetch p) := by
  unfold runAfterFetch
  split
  · refine ⟨rfl, ?_⟩
    rw [List.chain'_cons]
    exact ⟨Or.inr ⟨rfl, Or.inr rfl⟩, List.chain'_singleton _⟩
  · rw [h, Bool.and_false, if_neg (by simp)]
    refine ⟨rfl, ?_⟩
    rw [List.chain'_cons]
    exact ⟨Or.inr ⟨rfl, Or.inl rfl⟩, List.chain'_singleton _⟩

/-! ## Claim C1: the status lifecycle -/

/-- C1 (counterexample): the claim that a job's status transitions at most
once and a terminal record is never changed fails on the code.  On an
Azure-stored job whose analysis succeeds, the temp-file cleanup runs inside
the same `try` after the completed record is saved; when `os.remove` raises,
the `except` branch overwrites the record as failed, so the stored statuses
are observed as processing, then completed, then failed. -/
theorem completed_then_failed_on_cleanup_error :
    (runTrace envCleanupFails).map JobRecord.status = ["processing", "completed", "failed"] ∧
      ¬ List.Chain' stepOk (runTrace envCleanupFails) := by
  refine ⟨by decide, ?_⟩
  intro h
  rw [show runTrace envCleanupFails = [⟨"processing", none, none⟩,
      ⟨"completed", some (AnalysisValue.doc critOk, [0]), none⟩,
      ⟨"failed", some (AnalysisValue.doc critOk, [0]),
        some "PermissionError: temp file locked"⟩] from by decide] at h
  rw [List.chain'_cons, List.chain'_cons] at h
  rcases h.2.1 with heq | ⟨hs, _⟩
  · exact absurd (congrArg JobRecord.status heq) (by decide)
  · exact absurd hs (by decide)

/-- C1 (amended): for every pipeline run whose post-success cleanup does not
raise, the stored record starts at `processing` and every successive write
either leaves the record unchanged or moves it from `processing` to exactly
one terminal status; in particular `completed` is never followed by `failed`
in such runs. -/
theorem status_transitions_once_without_cleanup_error :
    ∀ p : PipelineEnv, p.cleanupRaises = false →
      (runTrace p).head? = some procRec ∧ List.Chain' stepOk (runTrace p) := by
  intro p h
  unfold runTrace
  split
  · split
    · refine ⟨rfl, ?_⟩
      rw [List.chain'_cons]
      exact ⟨Or.inr ⟨rfl, Or.inr rfl⟩, List.chain'_singleton _⟩
    · exact runAfterFetch_chain p h
  · exact runAfterFetch_chain p h

/-- C1 (witness): the amended lifecycle theorem applied to a concrete clean
local run. -/
theorem status_transitions_once_witness :
    (runTrace envCleanRun).head? = some procRec ∧ List.Chain' stepOk (runTrace envCleanRun) :=
  status_transitions_once_without_cleanup_error envCleanRun rfl

/-! ## Claim C2: missing credentials -/

/-- C2 (counterexample): the claim that a run with missing credentials ends
`failed` and is never stored `completed` fails on the code for the
frame-batch (OpenAI) variant: with every key absent, `analyze` returns the
typed missing-credentials error as an ordinary value, `background_processing`
treats any returned value as success, and the record ends `completed` with
the error text inside `data`. -/
theorem missing_keys_job_completed :
    openAIAnalyze oenvNoKeys [0] = Except.ok (AnalysisValue.errDict msgMissingKeys none) ∧
      (runTrace envMissingKeys).map JobRecord.status = ["processing", "completed"] ∧
      (runTrace envMissingKeys).getLast? =
        some ⟨"completed", some (AnalysisValue.errDict msgMissingKeys none, [0]), none⟩ := by
  decide

/-- C2 (amended): with credentials withheld, the first call that needs them
yields a typed error, and constructing either adapter never raises (the
constructors only log, so process startup does not crash — they are total
functions here).  For the frame-batch (OpenAI) variant the typed error is a
returned value and the job record ends `completed` with the
missing-credentials description stored in `data`; for the whole-video
(Gemini) variant the missing key makes the first remote call raise and the
record ends `failed` with that error. -/
theorem missing_credentials_typed_error_behavior :
    ∀ (p q : PipelineEnv) (e : String),
      getCoach p.modelName = CoachKind.openai →
      p.oenv.hasOpenai = true →
      p.oenv.azureApiKey = none →
      p.oenv.openaiApiKey = none →
      p.frames.isEmpty = false →
      p.isAzure = false →
      getCoach q.modelName = CoachKind.gemini →
      q.genv.hasGemini = true →
      q.genv.uploadRaises = some e →
      q.isAzure = false →
      openAIAnalyze p.oenv p.frames = Except.ok (AnalysisValue.errDict msgMissingKeys none) ∧
        runTrace p = [procRec,
          markCompleted procRec (AnalysisValue.errDict msgMissingKeys none, p.frames)] ∧
        runTrace q = [procRec, markFailed procRec e] := by
  intro p q e hc ho hak hok hne hA hcg hg hu hqA
  have han : openAIAnalyze p.oenv p.frames =
      Except.ok (AnalysisValue.errDict msgMissingKeys none) := by
    simp [openAIAnalyze, ho, hne, hak, hok]
  have hgan : geminiAnalyze q.genv = Except.error e := by
    simp [geminiAnalyze, hg, hu]
  have hp : processVideo p.modelName p.frames p.genv p.oenv =
      Except.ok (AnalysisValue.errDict msgMissingKeys none, p.frames) := by
    simp [processVideo, hc, han, Except.map]
  have hq : processVideo q.modelName q.frames q.genv q.oenv = Except.error e := by
    simp [processVideo, hcg, hgan, Except.map]
  refine ⟨han, ?_, ?_⟩
  · simp [runTrace, hA, runAfterFetch, hp]
  · simp [runTrace, hqA, runAfterFetch, hq]

/-- C2 (witness): the amended credentials theorem applied to concrete runs of
both variants with keys withheld. -/
theorem missing_credentials_witness :
    openAIAnalyze envMissingKeys.oenv envMissingKeys.frames =
      Except.ok (AnalysisValue.errDict msgMissingKeys none) ∧
      runTrace envMissingKeys = [procRec, markCompleted procRec
        (AnalysisValue.errDict msgMissingKeys none, envMissingKeys.frames)] ∧
      runTrace envGeminiNoKey = [procRec, markFailed procRec "GEMINI_API_KEY not configured"] :=
  missing_credentials_typed_error_behavior envMissingKeys envGeminiNoKey
    "GEMINI_API_KEY not configured" (by decide) rfl rfl rfl rfl rfl (by decide) rfl rfl rfl

/-! ## Claim C3: response parse failure -/

/-- C3 (counterexample): on a parse failure the adapter does return a typed
error retaining the raw response, but the claim that the record then ends
`failed` and never `completed` fails on the code: the pipeline stores the
returned error value under status `completed`. -/
theorem parse_failure_job_completed :
    geminiAnalyze genvParseFail =
      Except.ok (AnalysisValue.errDict msgParseFail (some "I cannot analyze this video")) ∧
      (runTrace envGeminiParseFail).map JobRecord.status = ["processing", "completed"] := by
  decide

/-- C3 (amended): when the provider response does not parse as the critique
structure, both adapter variants return (rather than throw) a typed error
that retains the raw response payload; the pipeline then stores that value
under status `completed` with the typed error, raw payload included, in the
`data` field — the record does not end `failed`. -/
theorem parse_failure_typed_error_retains_raw :
    ∀ (p q : PipelineEnv),
      getCoach p.modelName = CoachKind.gemini →
      p.genv.hasGemini = true → p.genv.uploadRaises = none → p.genv.remoteFailed = false →
      p.genv.requestRaises = none → p.genv.parsedDoc = none → p.isAzure = false →
      getCoach q.modelName = CoachKind.openai →
      q.oenv.hasOpenai = true → q.oenv.openaiApiKey.isSome = true →
      q.frames.isEmpty = false → q.oenv.requestRaises = none → q.oenv.parsedDoc = none →
      q.isAzure = false →
      geminiAnalyze p.genv =
        Except.ok (AnalysisValue.errDict msgParseFail (some p.genv.responseBody)) ∧
        runTrace p = [procRec, markCompleted procRec
          (AnalysisValue.errDict msgParseFail (some p.genv.responseBody), p.frames)] ∧
        openAIAnalyze q.oenv q.frames =
          Except.ok (AnalysisValue.errDict msgParseFail (some q.oenv.responseBody)) ∧
        runTrace q = [procRec, markCompleted procRec
          (AnalysisValue.errDict msgParseFail (some q.oenv.responseBody), q.frames)] := by
  intro p q hc hg hu hrf hrr hpd hA hcq ho hok hne hqr hqd hqA
  have han : geminiAnalyze p.genv =
      Except.ok (AnalysisValue.errDict msgParseFail (some p.genv.responseBody)) := by
    simp [geminiAnalyze, hg, hu, hrf, hrr, hpd]
  have hqn : openAIAnalyze q.oenv q.frames =
      Except.ok (AnalysisValue.errDict msgParseFail (some q.oenv.responseBody)) := by
    simp [openAIAnalyze, ho, hok, hne, hqr, hqd]
  have hp : processVideo p.modelName p.frames p.genv p.oenv =
      Except.ok (AnalysisValue.errDict msgParseFail (some p.genv.responseBody), p.frames) := by
    simp [processVideo, hc, han, Except.map]
  have hq : processVideo q.modelName q.frames q.genv q.oenv =
      Except.ok (AnalysisValue.errDict msgParseFail (some q.oenv.responseBody), q.frames) := by
    simp [processVideo, hcq, hqn, Except.map]
  refine ⟨han, ?_, hqn, ?_⟩
  · simp [runTrace, hA, runAfterFetch, hp]
  · simp [runTrace, hqA, runAfterFetch, hq]

/-- C3 (witness): the amended parse-failure theorem applied to concrete runs
of both variants with unparseable responses. -/
theorem parse_failure_witness :
    geminiAnalyze envGeminiParseFail.genv =
      Except.ok (AnalysisValue.errDict msgParseFail (some envGeminiParseFail.genv.responseBody)) ∧
      runTrace envGeminiParseFail = [procRec, markCompleted procRec
        (AnalysisValue.errDict msgParseFail (some envGeminiParseFail.genv.responseBody),
          envGeminiParseFail.frames)] ∧
      openAIAnalyze envOpenaiParseFail.oenv envOpenaiParseFail.frames =
        Except.ok (AnalysisValue.errDict msgParseFail
          (some envOpenaiParseFail.oenv.responseBody)) ∧
      runTrace envOpenaiParseFail = [procRec, markCompleted procRec
        (AnalysisValue.errDict msgParseFail (some envOpenaiParseFail.oenv.responseBody),
          envOpenaiParseFail.frames)] :=
  parse_failure_typed_error_retains_raw envGeminiParseFail envOpenaiParseFail
    (by decide) rfl rfl rfl rfl rfl rfl (by decide) rfl rfl rfl rfl rfl rfl

/-! ## Claim C4: durability of job-record writes -/

/-- C4 (counterexample): the claim that a failed write leaves the previously
stored record intact and readable fails on the code.  `save_job` opens the
file in truncate mode, so a dump that fails after 0 (or any partial number
of) characters has already destroyed the previous record; the truncated file
no longer parses, so a subsequent `load_job` returns `None` instead of the
previous record. -/
theorem failed_write_truncates_previous_record :
    parsesAsRecord processingDoc = true ∧
      loadJobContent processingDoc = some processingDoc ∧
      saveJobContent processingDoc completedDoc (some 0) = "" ∧
      saveJobContent processingDoc completedDoc (some 0) ≠ processingDoc ∧
      loadJobContent (saveJobContent processingDoc completedDoc (some 0)) = none ∧
      saveJobContent processingDoc completedDoc (some 12) ≠ processingDoc ∧
      loadJobContent (saveJobContent processingDoc completedDoc (some 12)) = none := by
  decide

/-- C4 (amended): a `save_job` write that fails after k characters leaves the
file holding the k-character prefix of the new serialization, independent of
what was stored before (truncate-then-write, no atomic rename), so the
previous record is not preserved; a reader of a file that no longer parses
gets `None` from `load_job` (the parse exception is caught), so readers
observe the job as missing rather than a partially written record, and
neither call propagates an exception to the pipeline. -/
theorem save_truncate_then_write_semantics :
    ∀ (prev1 prev2 serialized : String) (k : Nat),
      saveJobContent prev1 serialized (some k) = serialized.take k ∧
        saveJobContent prev1 serialized (some k) = saveJobContent prev2 serialized (some k) ∧
        (parsesAsRecord (serialized.take k) = false →
          loadJobContent (serialized.take k) = none) := by
  intro prev1 prev2 s k
  refine ⟨rfl, rfl, ?_⟩
  intro h
  simp [loadJobContent, h]

/-- C4 (witness): the truncate-semantics theorem applied to a concrete
interrupted write of a terminal record over a processing record. -/
theorem save_truncate_witness :
    saveJobContent processingDoc completedDoc (some 3) = completedDoc.take 3 ∧
      loadJobContent (completedDoc.take 3) = none :=
  ⟨(save_truncate_then_write_semantics processingDoc "" completedDoc 3).1,
    (save_truncate_then_write_semantics processingDoc "" completedDoc 3).2.2 (by decide)⟩

/-! ## Claim C5: temporary-file cleanup -/

/-- C5 (counterexample): the claim that a fetched temporary copy is deleted
regardless of outcome fails on the code: there is no `finally` phase, the
`os.remove` sits on the success path inside the `try`, so an Azure run whose
analysis raises ends `failed` with the temporary file still on disk. -/
theorem temp_file_left_on_failed_run :
    tempFileRemains envAzureFailedRun = true ∧
      lastStatus envAzureFailedRun = some "failed" := by
  decide

/-- C5 (amended): for an Azure run whose blob fetch succeeded, the fetched
temporary copy is gone at the end of the run exactly when the processing
step returned normally (the record ends `completed`) and the deletion call
itself did not raise; a failed run leaves the file behind. -/
theorem temp_file_removed_iff_success_and_cleanup_ok :
    ∀ p : PipelineEnv, p.isAzure = true → p.downloadRaises = none →
      (tempFileRemains p = false ↔
        (exceptOk (processVideo p.modelName p.frames p.genv p.oenv) = true ∧
          p.cleanupRaises = false)) := by
  intro p hA hD
  unfold tempFileRemains
  rw [hA, hD]
  cases hP : processVideo p.modelName p.frames p.genv p.oenv with
  | error e => simp [exceptOk]
  | ok v =>
    simp only [exceptOk, Option.isNone_none, Bool.and_true, Bool.true_and]
    cases p.cleanupRaises <;> simp

/-- C5 (witness): the cleanup theorem applied to a concrete clean Azure run. -/
theorem temp_file_witness :
    tempFileRemains envAzureCleanRun = false ↔
      (exceptOk (processVideo envAzureCleanRun.modelName envAzureCleanRun.frames
        envAzureCleanRun.genv envAzureCleanRun.oenv) = true ∧
        envAzureCleanRun.cleanupRaises = false) :=
  temp_file_removed_iff_success_and_cleanup_ok envAzureCleanRun rfl rfl

/-! ## Claim C7: the primary uniform-sampling formula -/

/-- C7 (counterexample): the claim that the i-th selected index is
round(i·(totalFrames−1)/(targetCount−1)) fails on the code: numpy linspace
with dtype=int truncates.  For totalFrames=11, targetCount=10 the code
selects index 5 at position 5 (50/9 truncated) where the spec's rounding
formula gives 6, so the selected lists differ. -/
theorem linspace_truncates_not_rounds :
    strategyOne envKnown11 10 = S1Result.done [0, 1, 2, 3, 4, 5, 6, 7, 8, 10] ∧
      specRoundedIdx 11 10 = [0, 1, 2, 3, 4, 6, 7, 8, 9, 10] ∧
      linspaceIdx 11 10 ≠ specRoundedIdx 11 10 := by
  decide

/-- C7 (amended): for every determined total in the sane range, the primary
strategy selects exactly targetCount indices, the i-th being
floor(i·(totalFrames−1)/(targetCount−1)) — truncation, not rounding; for
totalFrames=100 and targetCount=10 the selected indices are
0,11,22,33,44,55,66,77,88,99 as the spec states. -/
theorem primary_uniform_sampling_floor :
    ∀ (env : ImageioEnv) (t : Int) (num : Nat),
      env.hasImageio = true → env.improps = some t → 0 < t → t < 1000000 →
      env.kcOk = (fun _ => true) →
      strategyOne env num = S1Result.done (linspaceIdx t.toNat num) ∧
        (linspaceIdx t.toNat num).length = num ∧
        (∀ i, i < num → (linspaceIdx t.toNat num).getD i 0 = i * (t.toNat - 1) / (num - 1)) ∧
        linspaceIdx 100 10 = [0, 11, 22, 33, 44, 55, 66, 77, 88, 99] := by
  intro env t num hImg hProps ht1 ht2 hkc
  have hsane : saneCount t = true := by
    simp only [saneCount, Bool.and_eq_true, decide_eq_true_eq]
    exact ⟨ht1, ht2⟩
  refine ⟨?_, linspaceIdx_length _ _, ?_, by decide⟩
  · simp [strategyOne, hImg, hProps, hsane, hkc, List.filter_true]
  · intro i hi
    unfold linspaceIdx
    simp [List.getD_eq_getElem?_getD, List.getElem?_map, List.getElem?_range hi]

/-- C7 (witness): the floor-sampling theorem applied to the concrete
100-frame video with target 10. -/
theorem primary_uniform_sampling_witness :
    strategyOne envKnown100 10 = S1Result.done (linspaceIdx (100 : Int).toNat 10) ∧
      (linspaceIdx (100 : Int).toNat 10).length = 10 ∧
      (∀ i, i < 10 →
        (linspaceIdx (100 : Int).toNat 10).getD i 0 = i * ((100 : Int).toNat - 1) / (10 - 1)) ∧
      linspaceIdx 100 10 = [0, 11, 22, 33, 44, 55, 66, 77, 88, 99] :=
  primary_uniform_sampling_floor envKnown100 100 10 rfl rfl (by decide) (by decide) rfl

/-! ## Claim C8: the fallback downsampling formula -/

/-- C8: whenever the external-decoder fallback produced more files than
requested, the downsampled selection has exactly targetCount entries, the
i-th being the file at sorted position floor(i·producedCount/targetCount);
for 97 produced files and target 10 the positions are
0,9,19,29,38,48,58,67,77,87. -/
theorem fallback_downsample_positions :
    ∀ (files : List String) (num : Nat), num < files.length →
      downsampleFiles files num =
        (strategyTwoPositions files.length num).map (fun j => files.getD j "") ∧
        (downsampleFiles files num).length = num ∧
        strategyTwoPositions 97 10 = [0, 9, 19, 29, 38, 48, 58, 67, 77, 87] := by
  intro files num h
  refine ⟨?_, ?_, by decide⟩
  · simp [downsampleFiles, strategyTwoPositions, h, List.map_map, Function.comp]
  · simp [downsampleFiles, h]

/-- C8 (witness): the downsampling theorem applied to a concrete listing of
97 produced files with target 10. -/
theorem fallback_downsample_witness :
    downsampleFiles files97 10 =
      (strategyTwoPositions files97.length 10).map (fun j => files97.getD j "") ∧
      (downsampleFiles files97 10).length = 10 ∧
      strategyTwoPositions 97 10 = [0, 9, 19, 29, 38, 48, 58, 67, 77, 87] :=
  fallback_downsample_positions files97 10 (by decide)

/-! ## Claim C9: when the fallback runs -/

/-- C9 (counterexample): the claim that the fallback never runs once the
primary has produced a frame fails on the code: on the iterator path a
mid-stream decode exception escapes the strategy-1 block after frames were
already extracted, and control falls through to the ffmpeg block.  Here the
iterator yields one frame (captured and written) and then raises: one frame
was produced, yet the fallback is invoked. -/
theorem fallback_after_partial_primary :
    fallbackInvoked envIterRaise 10 = true ∧
      strategyOne envIterRaise 10 = S1Result.threw [0] ∧
      primaryProduced envIterRaise 10 = 1 := by
  decide

/-- C9 (amended): the fallback runs exactly when the primary strategy is
unavailable, throws at any point — even after producing one or more frames —
or completes having produced zero frames; it is skipped only when the
primary completes normally with at least one frame. -/
theorem fallback_trigger_characterization :
    ∀ (env : ImageioEnv) (num : Nat),
      fallbackInvoked env num = true ↔
        (strategyOne env num = S1Result.unavailable ∨
          (∃ fs, strategyOne env num = S1Result.threw fs) ∨
          strategyOne env num = S1Result.done []) := by
  intro env num
  rcases hE : strategyOne env num with _ | fs | fs <;>
    simp [fallbackInvoked, hE, List.isEmpty_iff]

/-! ## Claim C10: fallback indexing safety -/

/-- C10: whenever the fallback downsampling branch runs (producedCount >
targetCount ≥ 1), every selected position int(i·producedCount/targetCount)
lies within the produced file list, and the positions are strictly
increasing, hence pairwise distinct: the list indexing cannot go out of
range and no file is selected twice. -/
theorem downsample_indices_in_range_and_strict :
    ∀ (produced num : Nat), 1 ≤ num → num < produced →
      (∀ i, i < num → i * produced / num < produced) ∧
        List.Pairwise (· < ·) (strategyTwoPositions produced num) := by
  intro p num h1 h2
  constructor
  · intro i hi
    rw [Nat.div_lt_iff_lt_mul h1]
    have hp : 0 < p := lt_of_le_of_lt (Nat.zero_le _) h2
    calc i * p < i * p + p := Nat.lt_add_of_pos_right hp
      _ = (i + 1) * p := by ring
      _ ≤ num * p := Nat.mul_le_mul_right p hi
      _ = p * num := Nat.mul_comm _ _
  · unfold strategyTwoPositions
    rw [if_pos h2, List.pairwise_map]
    exact (List.pairwise_lt_range num).imp (fun hij => mulDiv_lt_strict h1 h2.le hij)

/-- C10 (witness): the indexing-safety theorem applied to 97 produced files
with target 10. -/
theorem downsample_indices_witness :
    (∀ i, i < 10 → i * 97 / 10 < 97) ∧
      List.Pairwise (· < ·) (strategyTwoPositions 97 10) :=
  downsample_indices_in_range_and_strict 97 10 (by decide) (by decide)

/-! ## Claim C6: sequence length and ordering -/

theorem digitChar_eq_iff : ∀ c, c < 10 → ∀ d, d < 10 →
    ((Nat.digitChar c = Nat.digitChar d) ↔ c = d) := by decide

theorem digitChar_lt_iff : ∀ c, c < 10 → ∀ d, d < 10 →
    ((Nat.digitChar c < Nat.digitChar d) ↔ c < d) := by decide

theorem lexLe_append_same : ∀ (pre a b : List Char), lexLe (pre ++ a) (pre ++ b) = lexLe a b := by
  intro pre
  induction pre with
  | nil => intro a b; rfl
  | cons c cs ih => intro a b; simp [lexLe, ih]

theorem pad3_lexLe_false {a b : Nat} (hab : a < b) (hb : b ≤ 999) (s t : List Char) :
    lexLe (pad3 b ++ s) (pad3 a ++ t) = false := by
  have hb2 : b / 100 < 10 := by omega
  have ha2 : a / 100 < 10 := by omega
  have hb1 : b / 10 % 10 < 10 := by omega
  have ha1 : a / 10 % 10 < 10 := by omega
  have hb0 : b % 10 < 10 := by omega
  have ha0 : a % 10 < 10 := by omega
  simp only [pad3, List.cons_append, lexLe]
  by_cases h2 : Nat.digitChar (b / 100) = Nat.digitChar (a / 100)
  · have h2n : b / 100 = a / 100 := (digitChar_eq_iff _ hb2 _ ha2).mp h2
    rw [if_pos h2]
    by_cases h1 : Nat.digitChar (b / 10 % 10) = Nat.digitChar (a / 10 % 10)
    · have h1n : b / 10 % 10 = a / 10 % 10 := (digitChar_eq_iff _ hb1 _ ha1).mp h1
      rw [if_pos h1]
      by_cases h0 : Nat.digitChar (b % 10) = Nat.digitChar (a % 10)
      · have h0n : b % 10 = a % 10 := (digitChar_eq_iff _ hb0 _ ha0).mp h0
        omega
      · rw [if_neg h0, decide_eq_false_iff_not, digitChar_lt_iff _ hb0 _ ha0]
        omega
    · rw [if_neg h1, decide_eq_false_iff_not, digitChar_lt_iff _ hb1 _ ha1]
      omega
  · rw [if_neg h2, decide_eq_false_iff_not, digitChar_lt_iff _ hb2 _ ha2]
    omega

theorem sortByName_eq_self : ∀ l : List ListedFile,
    List.Pairwise (fun u v => lexLe v.name u.name = false) l → sortByName l = l := by
  intro l
  induction l with
  | nil => intro _; rfl
  | cons x xs ih =>
    intro h
    rcases List.pairwise_cons.mp h with ⟨hx, hxs⟩
    simp only [sortByName]
    rw [ih hxs]
    cases xs with
    | nil => rfl
    | cons y ys =>
      simp only [insertByName]
      rw [hx y (List.mem_cons_self y ys)]
      simp

theorem ffmpegFiles_names_sorted (p : Nat) (hp : p ≤ 999) :
    List.Pairwise (fun u v => lexLe v.name u.name = false) (ffmpegFiles p) := by
  unfold ffmpegFiles
  rw [List.pairwise_map]
  refine (List.pairwise_lt_range p).imp_of_mem ?_
  intro a b ha hb hab
  have ha' : a < p := List.mem_range.mp ha
  have hb' : b < p := List.mem_range.mp hb
  show lexLe (ffmpegName (b + 1)) (ffmpegName (a + 1)) = false
  unfold ffmpegName
  rw [if_pos (by omega : b + 1 < 1000), if_pos (by omega : a + 1 < 1000)]
  rw [lexLe_append_same]
  exact pad3_lexLe_false (by omega) (by omega) _ _

theorem ffmpegFiles_length (p : Nat) : (ffmpegFiles p).length = p := by
  simp [ffmpegFiles]

theorem ffmpegFiles_getD (p pos : Nat) (h : pos < p) :
    (ffmpegFiles p).getD pos ⟨[], 0⟩ = ⟨ffmpegName (pos + 1), 30 * pos⟩ := by
  simp [ffmpegFiles, List.getD_eq_getElem?_getD, List.getElem?_map, List.getElem?_range h]

theorem mulDiv_lt_self {i num p : Nat} (hi : i < num) (hnum : num < p) : i * p / num < p := by
  rw [Nat.div_lt_iff_lt_mul (by omega : 0 < num)]
  have h1 : (i + 1) * p ≤ num * p := Nat.mul_le_mul_right p hi
  have h2 : i * p + p = (i + 1) * p := by ring
  have h3 : p * num = num * p := Nat.mul_comm _ _
  omega

theorem fallbackSelected_length_le (residue : List ListedFile) (ff : FfmpegEnv) (num : Nat) :
    (fallbackSelected residue ff num).length ≤ num := by
  unfold fallbackSelected
  split
  · unfold downsampleListing
    split
    · simp
    · rename_i h
      omega
  · simp

theorem cleanFallback_strict (ff : FfmpegEnv) (num ts : Nat) (hp : ff.producedCount ≤ 999) :
    List.Pairwise (· < ·) ((fallbackSelected (residueFiles ts []) ff num).map ListedFile.src) := by
  unfold fallbackSelected
  split
  · have hlist : fallbackListing (residueFiles ts []) ff.producedCount
        = ffmpegFiles ff.producedCount := by
      unfold fallbackListing residueFiles residueFilesGo
      rw [List.append_nil]
      exact sortByName_eq_self _ (ffmpegFiles_names_sorted _ hp)
    rw [hlist]
    unfold downsampleListing
    split
    · rename_i hlt
      rw [ffmpegFiles_length] at hlt
      rw [List.map_map, List.pairwise_map]
      refine (List.pairwise_lt_range num).imp_of_mem ?_
      intro a b ha hb hab
      have hb' : b < num := List.mem_range.mp hb
      simp only [Function.comp, ffmpegFiles_length]
      rw [ffmpegFiles_getD _ _ (mulDiv_lt_self (by omega) hlt),
        ffmpegFiles_getD _ _ (mulDiv_lt_self hb' hlt)]
      have := mulDiv_lt_strict (by omega : 0 < num) hlt.le hab
      simp only
      omega
    · rw [List.pairwise_map]
      unfold ffmpegFiles
      rw [List.pairwise_map]
      refine (List.pairwise_lt_range _).imp ?_
      intro a b hab
      simp only
      omega
  · simp

/-- C6 (counterexample): the claim of strictly increasing source-time order
(no source frame repeated or out of order) fails on the code in two ways.
In the known-count primary path with totalFrames=5 and targetCount=10 the
linspace indices repeat.  And when strategy 1 throws after writing a frame,
the fallback's sorted listing still holds that residue: the zero-padded
ffmpeg names sort before `frame_0_<ts>.jpg`, so with five decoder outputs
the returned source positions are 0,30,60,90,120 and then 0 again — the
sequence even decreases, so not even non-decreasing order holds for the
mixed listing. -/
theorem sampling_order_counterexamples :
    extractFramesSrc envKnown5 ffAbsent 10 0 = [0, 0, 0, 1, 1, 2, 2, 3, 3, 4] ∧
      ¬ List.Pairwise (· < ·) (extractFramesSrc envKnown5 ffAbsent 10 0) ∧
      extractFramesSrc envIterRaise ffFive 10 1735689600 = [0, 30, 60, 90, 120, 0] ∧
      ¬ List.Pairwise (· ≤ ·) (extractFramesSrc envIterRaise ffFive 10 1735689600) := by
  decide

/-- C6 (amended): for every sampling run with targetCount ≥ 1, the returned
sequence has length ≤ targetCount.  When the primary strategy completes and
returns its own frames, they are in non-decreasing source-time order
(strictly increasing except for the repeated linspace indices when
totalFrames < targetCount).  When the primary strategy is unavailable — so
nothing of it is on disk — and the decoder produced at most 999 files (the
zero-padded names sort in time order in that regime), the fallback's frames
are in strictly increasing source-time order.  No ordering is claimed when
the fallback's listing also holds residue of a partial primary run: the
counterexample shows the order can decrease there. -/
theorem extract_length_and_order_by_path :
    ∀ (env : ImageioEnv) (ff : FfmpegEnv) (num ts : Nat), 1 ≤ num →
      (extractFramesSrc env ff num ts).length ≤ num ∧
      (∀ fs, strategyOne env num = S1Result.done fs → fs ≠ [] →
        extractFramesSrc env ff num ts = fs ∧ List.Pairwise (· ≤ ·) fs) ∧
      (env.hasImageio = false → ff.producedCount ≤ 999 →
        List.Pairwise (· < ·) (extractFramesSrc env ff num ts)) := by
  intro env ff num ts h1
  have hspec := strategyOne_spec env num h1
  refine ⟨?_, ?_, ?_⟩
  · rcases hE : strategyOne env num with _ | fs | fs <;> simp only [extractFramesSrc, hE]
    · rw [List.length_map]
      exact fallbackSelected_length_le _ _ _
    · split
      · rw [List.length_map]
        exact fallbackSelected_length_le _ _ _
      · rw [hE] at hspec
        simpa [resultFrames] using hspec.1
    · rw [List.length_map]
      exact fallbackSelected_length_le _ _ _
  · intro fs hE hne
    simp only [extractFramesSrc, hE]
    have hfe : fs.isEmpty = false := by
      cases hfe : fs.isEmpty
      · rfl
      · exact absurd (List.isEmpty_iff.mp hfe) hne
    rw [hfe]
    refine ⟨by simp, ?_⟩
    rw [hE] at hspec
    simpa [resultFrames] using hspec.2
  · intro hno hp
    have hE : strategyOne env num = S1Result.unavailable := by
      simp [strategyOne, hno]
    simp only [extractFramesSrc, hE]
    exact cleanFallback_strict ff num ts hp

/-- C6 (witness): the length/ordering theorem applied to the concrete
known-count run with 5 total frames and target 10, and to a concrete clean
fallback run with 5 decoder outputs. -/
theorem extract_order_witness :
    (extractFramesSrc envKnown5 ffAbsent 10 0).length ≤ 10 ∧
      (extractFramesSrc envKnown5 ffAbsent 10 0 = [0, 0, 0, 1, 1, 2, 2, 3, 3, 4] ∧
        List.Pairwise (· ≤ ·) ([0, 0, 0, 1, 1, 2, 2, 3, 3, 4] : List Nat)) ∧
      List.Pairwise (· < ·) (extractFramesSrc envNoImageio ffFive 10 0) :=
  ⟨(extract_length_and_order_by_path envKnown5 ffAbsent 10 0 (by decide)).1,
    (extract_length_and_order_by_path envKnown5 ffAbsent 10 0 (by decide)).2.1
      [0, 0, 0, 1, 1, 2, 2, 3, 3, 4] (by decide) (by decide),
    (extract_length_and_order_by_path envNoImageio ffFive 10 0 (by decide)).2.2 rfl (by decide)⟩
